import Mathlib

/-!
Verification of the stream-source resolution and playback-session logic of the
`streamweaver-next` player component.

The development shallowly embeds the TypeScript source:

* `stripDrm`, `classify`, `detectStreamType` embed the URL resolver
  (`detectStreamType`, part_000 lines 36-69);
* `resolvedClearKey` embeds the ClearKey validation performed by
  `initShakaPlayer` before configuring the engine (part_000 lines 223-233);
* `destroyPlayer`, `stepInitStart`, `runImport`, `step` embed the player
  lifecycle (`destroyPlayer` lines 71-85, `initializePlayer` lines 281-341,
  `initHlsPlayer` lines 87-175, `initShakaPlayer` lines 177-279, the
  mount/unmount effect lines 343-354) as an event-step machine;
* `shakaErrorMessage` embeds the error-code bucketing (lines 241-250);
* `handleVolumeChange` embeds the volume intent handler (lines 401-411);
* `loadStreamSelect` embeds the engine selection of the second variant
  (`src/components/StreamPlayer.tsx` lines 40-53).

JavaScript strings are modelled as Lean `String`, with the handful of string
operations the source uses (`includes`, `split`, `URLSearchParams`,
`toLowerCase`, `startsWith`) implemented over `List Char` so that they are
both executable and amenable to proof.
-/

namespace StreamWeaver

/-! ## String primitives

`firstSplit sep l` finds the first occurrence of `sep` in `l` and returns the
part before it together with the part after it, or `none` when `sep` does not
occur.  This is the single primitive from which the JS operations
`String.prototype.includes` and `String.prototype.split` (restricted to the
components the source actually reads) are modelled.
-/

def firstSplit (sep : List Char) : List Char → Option (List Char × List Char)
  | [] => none
  | c :: rest =>
    if sep.isPrefixOf (c :: rest) then some ([], (c :: rest).drop sep.length)
    else
      match firstSplit sep rest with
      | some (pre, post) => some (c :: pre, post)
      | none => none

/-- The segment of `l` before the first occurrence of `sep` (all of `l` when
`sep` does not occur); this is `l.split(sep)[<index>]` for the next index
after a split point. -/
def headSeg (sep : List Char) (l : List Char) : List Char :=
  match firstSplit sep l with
  | none => l
  | some (pre, _) => pre

/-- JS `s.includes(pat)` for nonempty `pat`. -/
def containsTok (s pat : String) : Bool :=
  (firstSplit pat.data s.data).isSome

/-- JS `const [a, b] = s.split(sep)`: the first component of the split and,
when `sep` occurs, the second component (the segment between the first and
second occurrences). -/
def splitFirstTwo (sep s : String) : String × Option String :=
  match firstSplit sep.data s.data with
  | none => (s, none)
  | some (pre, post) => (⟨pre⟩, some ⟨headSeg sep.data post⟩)

/-- JS `s.split(c)` for a single-character separator, all components. -/
def splitChar (c : Char) : List Char → List (List Char)
  | [] => [[]]
  | x :: xs =>
    if x = c then [] :: splitChar c xs
    else
      match splitChar c xs with
      | [] => [[x]]
      | y :: ys => (x :: y) :: ys

/-! ## URLSearchParams

`parsePairs` models the WHATWG `URLSearchParams` constructor applied to a
string: strip one leading `?`, split on `&`, drop empty segments, split each
segment at the first `=` (a segment without `=` maps to the empty value), and
percent-decode names and values with `+` decoding to a space.  Percent
escapes are decoded byte-wise (multi-byte UTF-8 sequences are out of scope;
no claim depends on them).  `getParam` models `params.get(name)`.
-/

def hexVal (c : Char) : Option Nat :=
  if '0' ≤ c ∧ c ≤ '9' then some (c.toNat - '0'.toNat)
  else if 'a' ≤ c ∧ c ≤ 'f' then some (c.toNat - 'a'.toNat + 10)
  else if 'A' ≤ c ∧ c ≤ 'F' then some (c.toNat - 'A'.toNat + 10)
  else none

def percentDecode : List Char → List Char
  | [] => []
  | '%' :: a :: b :: rest =>
    match hexVal a, hexVal b with
    | some x, some y => Char.ofNat (16 * x + y) :: percentDecode rest
    | _, _ => '%' :: percentDecode (a :: b :: rest)
  | '+' :: rest => ' ' :: percentDecode rest
  | c :: rest => c :: percentDecode rest

def parsePairs (query : String) : List (String × String) :=
  let q : List Char :=
    match query.data with
    | '?' :: rest => rest
    | l => l
  ((splitChar '&' q).filter (· ≠ [])).map fun seg =>
    match firstSplit ['='] seg with
    | none => (⟨percentDecode seg⟩, "")
    | some (n, v) => (⟨percentDecode n⟩, ⟨percentDecode v⟩)

def getParam (query name : String) : Option String :=
  ((parsePairs query).find? (fun p => p.1 == name)).map (·.2)

/-- JS `s.toLowerCase()` (restricted to ASCII, which is all the sniffing
tokens need); implemented over `data` so that it reduces in the kernel. -/
def asciiLower (s : String) : String :=
  ⟨s.data.map Char.toLower⟩

/-! ## URL resolver (part_000, `detectStreamType`, lines 36-69) -/

structure DrmInfo where
  scheme : String
  license : String
deriving DecidableEq, Repr

inductive StreamType where
  | hls
  | dash
  | native
deriving DecidableEq, Repr

/-- Lines 37-54 of `detectStreamType`: detect the inline-DRM delimiter
(`?|`, else a bare `|`), split off the parameter block, and read
`drmScheme` / `drmLicense` from it (both must be present and non-empty,
mirroring the JS truthiness test `if (drmScheme && drmLicense)`). -/
def parseDrmParams : Option String → Option DrmInfo
  | none => none
  | some drmParams =>
    if drmParams ≠ "" then
      match getParam drmParams "drmScheme", getParam drmParams "drmLicense" with
      | some ds, some dl =>
        if ds ≠ "" ∧ dl ≠ "" then some ⟨ds, dl⟩ else none
      | _, _ => none
    else none

def stripDrm (url : String) : String × Option DrmInfo :=
  if containsTok url "?|" || containsTok url "|" then
    let separator := if containsTok url "?|" then "?|" else "|"
    let parts := splitFirstTwo separator url
    (parts.1, parseDrmParams parts.2)
  else (url, none)

/-- Lines 56-68 of `detectStreamType`: first-match classification of the
cleaned URL (lower-cased for sniffing), with the parsed DRM block also
forcing `dash`. -/
def classify (cleanUrl : String) (drmInfo : Option DrmInfo) : StreamType :=
  let urlLower := asciiLower cleanUrl
  if containsTok urlLower ".mpd" || containsTok urlLower "/dash/" || drmInfo.isSome then
    .dash
  else if containsTok urlLower ".m3u8" || containsTok urlLower "/hls/" then
    .hls
  else if containsTok urlLower ".mp4" || containsTok urlLower ".webm" then
    .native
  else
    .hls

structure DetectResult where
  type : StreamType
  cleanUrl : String
  drmInfo : Option DrmInfo
deriving DecidableEq, Repr

def detectStreamType (url : String) : DetectResult :=
  ⟨classify (stripDrm url).1 (stripDrm url).2, (stripDrm url).1, (stripDrm url).2⟩

/-! ## ClearKey validation (part_000, `initShakaPlayer`, lines 223-233)

`initShakaPlayer` configures the engine's ClearKey table only when
`drmInfo && drmInfo.scheme === 'clearkey' && drmInfo.license &&
drmInfo.license.includes(':')`, and then takes the first two `:`-separated
fields of the license (`const [keyId, key] = drmInfo.license.split(':')`).
-/

def resolvedClearKey : Option DrmInfo → Option (String × String)
  | none => none
  | some i =>
    if i.scheme = "clearkey" ∧ i.license ≠ "" ∧ containsTok i.license ":" then
      match splitFirstTwo ":" i.license with
      | (keyId, some key) => some (keyId, key)
      | (_, none) => none
    else none

/-- The spec's `ResolvedSource`: clean URL, resolved kind, and the DRM
credentials the player actually ends up configured with (the composition of
`detectStreamType` with `initShakaPlayer`'s ClearKey validation). -/
structure Resolved where
  cleanUrl : String
  kind : StreamType
  drm : Option (String × String)
deriving DecidableEq, Repr

def resolve (url : String) : Resolved :=
  let d := detectStreamType url
  ⟨d.cleanUrl, d.type, resolvedClearKey d.drmInfo⟩

/-! ## Spec-side definitions for the refinement claims

These two definitions follow the SPEC's words (not the source); the claims
compare them with the behaviour embedded above.
-/

/-- Classification following claim C1's words: first-match on the
delimiter-stripped URL, lower-cased for sniffing, where the `dash` trigger is
the presence of the RESOLVED (ClearKey-validated) drm block of the spec's
`ResolvedSource`. -/
def specKindC1 (url : String) : StreamType :=
  let r := resolve url
  let urlLower := asciiLower r.cleanUrl
  if containsTok urlLower ".mpd" || containsTok urlLower "/dash/" || r.drm.isSome then
    .dash
  else if containsTok urlLower ".m3u8" || containsTok urlLower "/hls/" then
    .hls
  else if containsTok urlLower ".mp4" || containsTok urlLower ".webm" then
    .native
  else
    .hls

/-- Validity of a DRM block following claim C2's words: scheme `clearkey` and
a license with exactly one `:` separating a non-empty keyId from a non-empty
key. -/
def specValidDrmC2 (i : DrmInfo) : Bool :=
  i.scheme == "clearkey" && i.license.data.count ':' == 1 &&
    (match firstSplit [':'] i.license.data with
     | some (pre, post) => !pre.isEmpty && !post.isEmpty
     | none => false)

/-! ## Playback session machine (part_000, lines 71-354)

The component's lifecycle is embedded as an event-step machine.  The state
collects the refs (`hlsRef`, `shakaPlayerRef`, `playerTypeRef`,
`isMountedRef`, `loadingTimeoutRef`) and the React `PlaybackState` fields the
claims talk about (`isPlaying`, `isLoading`, `error`).  Suspension points of
the async code are modelled as separate events:

* `initStart src` is the synchronous prefix of `initializePlayer`
  (lines 281-331 up to the first `await`): tear down, reset the state flags,
  arm the load deadline, detect the stream type and set `playerTypeRef`; for
  the `dash`/`hls` branches the dynamic `import(...)` suspends, recorded as a
  pending import continuation; the `native` branch completes synchronously.
* `importDone tok` resumes a pending continuation: the body of
  `initShakaPlayer` (lines 179-261, up to `await player.load`) or of
  `initHlsPlayer` (lines 89-171).  Neither continuation re-checks
  `isMountedRef`, exactly as in the source.
* Engine callbacks and promise continuations are events, each guarded by
  what can physically deliver it: `hls.js` events need a live `hlsRef`
  (destroy detaches them), the Shaka error event needs a live
  `shakaPlayerRef`, a Shaka `load` can only RESOLVE while its player is
  alive but can REJECT whenever it is still in flight (destroying a Shaka
  player rejects its in-flight `load`), and the `loadedmetadata` listener of
  the native path survives `destroyPlayer` because it is attached to the
  video element itself (`{ once: true }`).

All engine callbacks and user events run on one logical thread, so each
event is one atomic step.  The returned `List Act` is the trace of
observable side effects of the step, in program order.
-/

/-- `playerTypeRef` values. -/
inductive PT where
  | hls
  | shaka
  | native
deriving DecidableEq, Repr

/-- Observable side effects of a step. -/
inductive Act where
  | destroyHls (id : Nat)
  | destroyShaka (id : Nat)
  | clearTimeout (id : Nat)
  | createHls (id : Nat)
  | createShaka (id : Nat)
  | armTimeout (id : Nat)
  | startLoad
  | recoverMediaError
  | videoPlay
  | setIsLoading (b : Bool)
  | setError (e : Option String)
  | setIsPlaying (b : Bool)
deriving DecidableEq, Repr

/-- A suspended engine-initialization continuation (the code after a dynamic
`import(...)`), remembering which init path it belongs to and the resolver
output captured by its closure. -/
structure PendingImport where
  tok : Nat
  kind : PT
  url : String
  drmInfo : Option DrmInfo
deriving DecidableEq, Repr

/-- Runtime capabilities of the environment, checked by the init paths. -/
structure Env where
  hlsSupported : Bool
  nativeHlsSupported : Bool
  shakaSupported : Bool
deriving DecidableEq, Repr

structure MState where
  mounted : Bool
  hlsRef : Option Nat
  shakaRef : Option Nat
  loadingTimeout : Option Nat
  playerType : Option PT
  nativeListener : Bool
  pendingImports : List PendingImport
  pendingLoads : List Nat
  isPlaying : Bool
  isLoading : Bool
  error : Option String
  nextId : Nat
deriving DecidableEq, Repr

def initState : MState :=
  { mounted := true, hlsRef := none, shakaRef := none, loadingTimeout := none,
    playerType := none, nativeListener := false, pendingImports := [],
    pendingLoads := [], isPlaying := false, isLoading := false, error := none,
    nextId := 0 }

/-- Lines 71-85: destroy both engine handles (when present), cancel the
pending load timeout, and null everything that was released. -/
def destroyPlayer (s : MState) : MState × List Act :=
  let (aHls, hls') :=
    match s.hlsRef with
    | some i => ([Act.destroyHls i], (none : Option Nat))
    | none => ([], none)
  let (aShaka, shaka') :=
    match s.shakaRef with
    | some i => ([Act.destroyShaka i], (none : Option Nat))
    | none => ([], none)
  let (aTimer, timer') :=
    match s.loadingTimeout with
    | some i => ([Act.clearTimeout i], (none : Option Nat))
    | none => ([], none)
  ({ s with hlsRef := hls', shakaRef := shaka', loadingTimeout := timer',
            playerType := none },
   aHls ++ aShaka ++ aTimer)

/-- The `if (loadingTimeoutRef.current) { clearTimeout(...); ... = null }`
idiom used by every success/error handler. -/
def clearLoadingTimeout (s : MState) : MState × List Act :=
  match s.loadingTimeout with
  | some i => ({ s with loadingTimeout := none }, [Act.clearTimeout i])
  | none => (s, [])

def loadTimeoutMsg : String := "Stream took too long to load. Please try again."

def shakaUnsupportedMsg : String := "This browser is not supported by Shaka Player"

def hlsUnsupportedMsg : String := "HLS is not supported in this browser"

/-- Lines 281-331: the synchronous prefix of `initializePlayer` (for a
component that has a video element and a source).  The dash and hls branches
suspend at their dynamic import, pushing a pending continuation. -/
def stepInitStart (s : MState) (src : String) : MState × List Act :=
  let s1 := (destroyPlayer s).1
  let a1 := (destroyPlayer s).2
  let s2 := { s1 with isLoading := true, error := none, isPlaying := false }
  let a2 := [Act.setIsLoading true, Act.setError none, Act.setIsPlaying false]
  let tid := s2.nextId
  let s3 := { s2 with loadingTimeout := some tid, nextId := s2.nextId + 1 }
  let a3 := [Act.armTimeout tid]
  let d := detectStreamType src
  match d.type with
  | .dash =>
    let tok := s3.nextId
    ({ s3 with playerType := some .shaka, nextId := s3.nextId + 1,
               pendingImports := s3.pendingImports ++ [⟨tok, .shaka, d.cleanUrl, d.drmInfo⟩] },
     a1 ++ a2 ++ a3)
  | .hls =>
    let tok := s3.nextId
    ({ s3 with playerType := some .hls, nextId := s3.nextId + 1,
               pendingImports := s3.pendingImports ++ [⟨tok, .hls, d.cleanUrl, d.drmInfo⟩] },
     a1 ++ a2 ++ a3)
  | .native =>
    ({ s3 with playerType := some .native, nativeListener := true },
     a1 ++ a2 ++ a3)

/-- The body of a resumed init continuation.

For `.shaka` (lines 181-261): polyfills, support check (`throw` caught by
`initializePlayer`'s catch, lines 332-340), destroy an existing
`shakaPlayerRef` (lines 187-189), create the player, configure it, register
the error listener and start `load` (the `await player.load` is left in
flight).

For `.hls` (lines 91-171): if `Hls.isSupported()`, create and attach an
`hls.js` instance (its `MANIFEST_PARSED`/`ERROR` handlers are delivered as
events); otherwise fall back to native HLS when the platform supports it
(direct `video.src` assignment plus a `loadedmetadata` listener); otherwise
`throw`, caught by `initializePlayer`'s catch. -/
def runImport (env : Env) (s : MState) (p : PendingImport) : MState × List Act :=
  match p.kind with
  | .shaka =>
    if env.shakaSupported then
      let s1 :=
        match s.shakaRef with
        | some _ => { s with shakaRef := none }
        | none => s
      let aOld :=
        match s.shakaRef with
        | some i => [Act.destroyShaka i]
        | none => ([] : List Act)
      let pid := s1.nextId
      ({ s1 with shakaRef := some pid, nextId := s1.nextId + 1,
                 pendingLoads := s1.pendingLoads ++ [pid] },
       aOld ++ [Act.createShaka pid])
    else
      let s1 := (clearLoadingTimeout s).1
      let aT := (clearLoadingTimeout s).2
      ({ s1 with isLoading := false, error := some shakaUnsupportedMsg },
       aT ++ [Act.setIsLoading false, Act.setError (some shakaUnsupportedMsg)])
  | .hls =>
    if env.hlsSupported then
      let pid := s.nextId
      ({ s with hlsRef := some pid, nextId := s.nextId + 1 },
       [Act.createHls pid])
    else if env.nativeHlsSupported then
      ({ s with playerType := some .native, nativeListener := true }, [])
    else
      let s1 := (clearLoadingTimeout s).1
      let aT := (clearLoadingTimeout s).2
      ({ s1 with isLoading := false, error := some hlsUnsupportedMsg },
       aT ++ [Act.setIsLoading false, Act.setError (some hlsUnsupportedMsg)])
  | .native => (s, [])

/-- Error-code bucketing of the Shaka error handler (lines 241-250). -/
def shakaErrorMessage (code : Nat) : String :=
  if 6000 ≤ code ∧ code < 7000 then "Network error - please check your connection"
  else if 4000 ≤ code ∧ code < 5000 then "Media format not supported"
  else if 1000 ≤ code ∧ code < 2000 then "DRM error - content may be protected"
  else "Stream error (" ++ toString code ++ ")"

/-- `hls.js` error categories (`Hls.ErrorTypes`). -/
inductive HlsErrKind where
  | networkError
  | mediaError
  | otherError
deriving DecidableEq, Repr

/-- Events delivered to the component. -/
inductive Ev where
  | initStart (src : String)
  | importDone (tok : Nat)
  | unmount
  | remount
  | timeoutFire (tid : Nat)
  | hlsManifestParsed
  | hlsError (fatal : Bool) (kind : HlsErrKind) (details : String)
  | shakaError (code : Nat)
  | shakaLoadResolved (pid : Nat)
  | shakaLoadRejected (pid : Nat) (msg : String)
  | nativeLoadedMetadata
deriving DecidableEq, Repr

/-- Guard: which events the environment can deliver in a given state. -/
def evOk (s : MState) : Ev → Bool
  | .initStart _ => s.mounted
  | .importDone tok => (s.pendingImports.find? (fun p => p.tok == tok)).isSome
  | .unmount => s.mounted
  | .remount => !s.mounted
  | .timeoutFire tid => s.loadingTimeout == some tid
  | .hlsManifestParsed => s.hlsRef.isSome
  | .hlsError _ _ _ => s.hlsRef.isSome
  | .shakaError _ => s.shakaRef.isSome
  | .shakaLoadResolved pid => s.pendingLoads.contains pid && s.shakaRef == some pid
  | .shakaLoadRejected pid _ => s.pendingLoads.contains pid
  | .nativeLoadedMetadata => s.nativeListener

/-- One atomic step of the component: the handler the source attaches for
that event, with its observable side effects in program order. -/
def step (env : Env) (s : MState) : Ev → MState × List Act
  | .initStart src => stepInitStart s src
  | .importDone tok =>
    match s.pendingImports.find? (fun p => p.tok == tok) with
    | some p =>
      runImport env { s with pendingImports := s.pendingImports.filter (fun q => q.tok != tok) } p
    | none => (s, [])
  | .unmount =>
    -- Lines 347-353: cleanup sets `isMountedRef.current = false` and destroys.
    destroyPlayer { s with mounted := false }
  | .remount => ({ s with mounted := true }, [])
  | .timeoutFire _ =>
    -- Lines 295-301.
    if s.mounted then
      let s1 := { s with isLoading := false, error := some loadTimeoutMsg }
      ((destroyPlayer s1).1,
       [Act.setIsLoading false, Act.setError (some loadTimeoutMsg)] ++ (destroyPlayer s1).2)
    else (s, [])
  | .hlsManifestParsed =>
    -- Lines 108-121 (guarded by `isMountedRef`).
    if s.mounted then
      ({ (clearLoadingTimeout s).1 with isLoading := false, error := none, isPlaying := true },
       (clearLoadingTimeout s).2 ++
         [Act.videoPlay, Act.setIsLoading false, Act.setError none, Act.setIsPlaying true])
    else (s, [])
  | .hlsError fatal kind details =>
    -- Lines 123-149 (guarded by `isMountedRef`; non-fatal errors only log).
    if s.mounted then
      if fatal then
        let s1 := (clearLoadingTimeout s).1
        let aT := (clearLoadingTimeout s).2
        match kind with
        | .networkError => (s1, aT ++ [Act.startLoad])
        | .mediaError => (s1, aT ++ [Act.recoverMediaError])
        | .otherError =>
          let s2 := { s1 with error := some ("HLS Error: " ++ details), isLoading := false }
          ((destroyPlayer s2).1,
           aT ++ [Act.setError (some ("HLS Error: " ++ details)),
                  Act.setIsLoading false] ++ (destroyPlayer s2).2)
      else (s, [])
    else (s, [])
  | .shakaError code =>
    -- Lines 235-256: note there is NO `isMountedRef` check here.
    let s1 := (clearLoadingTimeout s).1
    let aT := (clearLoadingTimeout s).2
    let msg := shakaErrorMessage code
    let s2 := { s1 with error := some msg, isLoading := false }
    ((destroyPlayer s2).1,
     aT ++ [Act.setError (some msg), Act.setIsLoading false] ++ (destroyPlayer s2).2)
  | .shakaLoadResolved pid =>
    -- Lines 263-273: the continuation after `await player.load`; no
    -- `isMountedRef` check.
    let s0 := { s with pendingLoads := s.pendingLoads.filter (fun q => q != pid) }
    ({ (clearLoadingTimeout s0).1 with isLoading := false, error := none, isPlaying := true },
     (clearLoadingTimeout s0).2 ++
       [Act.videoPlay, Act.setIsLoading false, Act.setError none, Act.setIsPlaying true])
  | .shakaLoadRejected pid msg =>
    -- The rejection propagates through `initShakaPlayer`'s catch (rethrow,
    -- lines 276-278) to `initializePlayer`'s catch (lines 332-340); no
    -- `isMountedRef` check.
    let s0 := { s with pendingLoads := s.pendingLoads.filter (fun q => q != pid) }
    ({ (clearLoadingTimeout s0).1 with isLoading := false, error := some msg },
     (clearLoadingTimeout s0).2 ++ [Act.setIsLoading false, Act.setError (some msg)])
  | .nativeLoadedMetadata =>
    -- Lines 155-166 / 317-328: `{ once: true }` listener on the video
    -- element; it checks `isMountedRef` but survives `destroyPlayer`.
    let s0 := { s with nativeListener := false }
    if s.mounted then
      ({ (clearLoadingTimeout s0).1 with isLoading := false, error := none, isPlaying := true },
       (clearLoadingTimeout s0).2 ++
         [Act.videoPlay, Act.setIsLoading false, Act.setError none, Act.setIsPlaying true])
    else (s0, [])

/-- Number of live engine instances tracked by the refs. -/
def aliveEngines (s : MState) : Nat :=
  (if s.hlsRef.isSome then 1 else 0) + (if s.shakaRef.isSome then 1 else 0)

/-- The strong at-most-one-engine invariant for sequentialized traces: at
most one engine alive, none while an init continuation is suspended at its
dynamic import, and at most one suspended continuation. -/
def InvC4 (s : MState) : Prop :=
  aliveEngines s ≤ 1 ∧ (s.pendingImports ≠ [] → aliveEngines s = 0) ∧
    s.pendingImports.length ≤ 1

/-- Reachability along arbitrary valid event sequences. -/
inductive Reach (env : Env) : MState → Prop where
  | base : Reach env initState
  | next (s : MState) (e : Ev) : Reach env s → evOk s e = true → Reach env (step env s e).1

/-- Reachability along sequentialized event sequences: a new
`initializePlayer` only starts once no engine-init continuation is still
suspended at its dynamic import (i.e. source changes never interleave with
an in-flight engine construction). -/
inductive ReachSeq (env : Env) : MState → Prop where
  | base : ReachSeq env initState
  | next (s : MState) (e : Ev) : ReachSeq env s → evOk s e = true →
      (∀ src, e = Ev.initStart src → s.pendingImports = []) →
      ReachSeq env (step env s e).1

/-- Which actions are mutations of the UI-facing `PlaybackState`. -/
def isStateMutation : Act → Bool
  | .setIsLoading _ => true
  | .setError _ => true
  | .setIsPlaying _ => true
  | _ => false

/-- Run a sequence of events from a given state. -/
def runTraceFrom (env : Env) (s : MState) (evs : List Ev) : MState :=
  evs.foldl (fun t e => (step env t e).1) s

/-- All guards hold along the way. -/
def traceOkFrom (env : Env) (s : MState) : List Ev → Bool
  | [] => true
  | e :: rest => evOk s e && traceOkFrom env (step env s e).1 rest

def runTrace (env : Env) (evs : List Ev) : MState :=
  runTraceFrom env initState evs

def traceOk (env : Env) (evs : List Ev) : Bool :=
  traceOkFrom env initState evs

/-! ## Second variant (`src/components/StreamPlayer.tsx`, lines 40-53)

Engine selection of the `loadStream` effect of the second player variant:
mixed-content blocking first, then Shaka for `type === "hls" ||
src.includes(".m3u8") || type === "dash" || src.includes(".mpd")`, else
direct `video.src` assignment.
-/

inductive HintT where
  | hls
  | dash
  | mp4
deriving DecidableEq, Repr

/-- The `source` prop: a raw URL plus the caller-supplied advisory type. -/
structure StreamSource where
  src : String
  hintedType : Option HintT
deriving DecidableEq, Repr

inductive EngineV2 where
  | shakaV2
  | direct
deriving DecidableEq, Repr

/-- JS `s.startsWith(p)`, over `data` so it reduces. -/
def startsWithStr (s p : String) : Bool :=
  p.data.isPrefixOf s.data

def loadStreamSelect (pageHttps : Bool) (source : StreamSource) : Option EngineV2 :=
  if pageHttps && startsWithStr source.src "http://" then
    none
  else if source.hintedType == some .hls || containsTok source.src ".m3u8" ||
      source.hintedType == some .dash || containsTok source.src ".mpd" then
    some .shakaV2
  else
    some .direct

/-- Canonical variant: `initializePlayer` selects the engine from
`detectStreamType(source.src)` only (lines 304-314); the hinted type is
never read. -/
def canonicalSelect (source : StreamSource) : PT :=
  match (detectStreamType source.src).type with
  | .dash => .shaka
  | .hls => .hls
  | .native => .native

/-! ## Volume intent handler (part_000, lines 401-411) -/

/-- The playback surface fields the handler touches. -/
structure VideoEl where
  volume : ℚ
  muted : Bool
deriving DecidableEq, Repr

/-- The component state the handler touches: the video ref, the `volume`
React state (the slider's first element) and the `isMuted` flag. -/
structure VolState where
  video : Option VideoEl
  volume : Nat
  isMuted : Bool
deriving DecidableEq, Repr

/-- Lines 401-411: `handleVolumeChange([v])`.  With no video attached it
returns immediately; otherwise it sets the surface volume to `v / 100`,
stores the slider value, and couples the mute flag to the volume. -/
def handleVolumeChange (s : VolState) (v : Nat) : VolState :=
  match s.video with
  | none => s
  | some el =>
    let s1 := { s with video := some { el with volume := (v : ℚ) / 100 }, volume := v }
    if v = 0 then { s1 with isMuted := true }
    else if s1.isMuted then { s1 with isMuted := false }
    else s1

/-! ## Lemmas about `firstSplit` -/

theorem firstSplit_append (sep : List Char) :
    ∀ l pre post, firstSplit sep l = some (pre, post) → l = pre ++ sep ++ post := by
  intro l
  induction l with
  | nil => intro pre post h; simp [firstSplit] at h
  | cons c rest ih =>
    intro pre post h
    simp only [firstSplit] at h
    by_cases hp : sep.isPrefixOf (c :: rest)
    · rw [if_pos hp] at h
      obtain ⟨t, ht⟩ := List.isPrefixOf_iff_prefix.mp hp
      simp only [Option.some.injEq, Prod.mk.injEq] at h
      obtain ⟨h1, h2⟩ := h
      subst h1
      subst h2
      simp only [List.nil_append]
      rw [← ht, List.drop_left]
    · rw [if_neg hp] at h
      cases hfr : firstSplit sep rest with
      | none => rw [hfr] at h; simp at h
      | some pp =>
        obtain ⟨pre', post'⟩ := pp
        rw [hfr] at h
        simp only [Option.some.injEq, Prod.mk.injEq] at h
        obtain ⟨h1, h2⟩ := h
        subst h1
        subst h2
        have hr := ih _ _ hfr
        simp [hr]

theorem firstSplit_head_none (sep : List Char) :
    ∀ l pre post, firstSplit sep l = some (pre, post) → firstSplit sep pre = none := by
  intro l
  induction l with
  | nil => intro pre post h; simp [firstSplit] at h
  | cons c rest ih =>
    intro pre post h
    simp only [firstSplit] at h
    by_cases hp : sep.isPrefixOf (c :: rest)
    · rw [if_pos hp] at h
      simp only [Option.some.injEq, Prod.mk.injEq] at h
      obtain ⟨h1, _⟩ := h
      subst h1
      rfl
    · rw [if_neg hp] at h
      cases hfr : firstSplit sep rest with
      | none => rw [hfr] at h; simp at h
      | some pp =>
        obtain ⟨pre', post'⟩ := pp
        rw [hfr] at h
        simp only [Option.some.injEq, Prod.mk.injEq] at h
        obtain ⟨h1, _⟩ := h
        subst h1
        have hnp : ¬ sep.isPrefixOf (c :: pre') = true := by
          intro hq
          apply hp
          apply List.isPrefixOf_iff_prefix.mpr
          have hq1 : sep <+: c :: pre' := List.isPrefixOf_iff_prefix.mp hq
          have hq2 : c :: pre' <+: c :: rest := by
            have hr := firstSplit_append sep rest pre' post' hfr
            exact ⟨sep ++ post', by simp [hr]⟩
          exact hq1.trans hq2
        simp only [firstSplit, Bool.not_eq_true] at hnp ⊢
        rw [if_neg (by simp [hnp]), ih _ _ hfr]

theorem firstSplit_isSome_append (sep x y : List Char) (hsep : sep ≠ []) :
    (firstSplit sep (x ++ sep ++ y)).isSome = true := by
  induction x with
  | nil =>
    simp only [List.nil_append]
    cases sep with
    | nil => exact absurd rfl hsep
    | cons s0 sep' =>
      have hp : (s0 :: sep').isPrefixOf (s0 :: sep' ++ y) = true :=
        List.isPrefixOf_iff_prefix.mpr ⟨y, by simp⟩
      simp only [List.cons_append, firstSplit]
      rw [if_pos (by simp [hp])]
      rfl
  | cons c x' ih =>
    have hgoal : (c :: x') ++ sep ++ y = c :: (x' ++ sep ++ y) := by simp
    rw [hgoal]
    simp only [firstSplit]
    by_cases hp : sep.isPrefixOf (c :: (x' ++ sep ++ y))
    · rw [if_pos hp]
      rfl
    · rw [if_neg hp]
      cases hfs : firstSplit sep (x' ++ sep ++ y) with
      | none => rw [hfs] at ih; simp at ih
      | some pp =>
        obtain ⟨a, b⟩ := pp
        rfl

theorem contains_pipe_of_contains_qpipe (s : String) :
    containsTok s "?|" = true → containsTok s "|" = true := by
  intro h
  unfold containsTok at h ⊢
  obtain ⟨⟨pre, post⟩, hfs⟩ := Option.isSome_iff_exists.mp h
  have hd := firstSplit_append _ _ _ _ hfs
  have : s.data = (pre ++ ['?']) ++ "|".data ++ post := by
    rw [hd]
    simp
  rw [this]
  exact firstSplit_isSome_append _ _ _ (by simp)

theorem splitFirstTwo_fst_not_contains (sep s : String) (h : containsTok s sep = true) :
    containsTok (splitFirstTwo sep s).1 sep = false := by
  unfold containsTok at h
  obtain ⟨⟨pre, post⟩, hfs⟩ := Option.isSome_iff_exists.mp h
  unfold splitFirstTwo
  rw [hfs]
  unfold containsTok
  have : (⟨pre⟩ : String).data = pre := rfl
  rw [this, firstSplit_head_none sep.data s.data pre post hfs]
  rfl

theorem containsTok_empty_false (s pat : String) (h : containsTok s pat = true) : s ≠ "" := by
  intro he
  rw [he] at h
  have hd : ("" : String).data = [] := rfl
  rw [containsTok, hd] at h
  simp [firstSplit] at h

/-- Case analysis of `classify`: each branch of the first-match chain. -/
theorem classify_cases (c : String) (d : Option DrmInfo) :
    ((containsTok (asciiLower c) ".mpd" = true ∨ containsTok (asciiLower c) "/dash/" = true ∨
      d.isSome = true) → classify c d = StreamType.dash) ∧
    (containsTok (asciiLower c) ".mpd" = false → containsTok (asciiLower c) "/dash/" = false →
      d.isSome = false →
      (containsTok (asciiLower c) ".m3u8" = true ∨ containsTok (asciiLower c) "/hls/" = true) →
      classify c d = StreamType.hls) ∧
    (containsTok (asciiLower c) ".mpd" = false → containsTok (asciiLower c) "/dash/" = false →
      d.isSome = false → containsTok (asciiLower c) ".m3u8" = false →
      containsTok (asciiLower c) "/hls/" = false →
      (containsTok (asciiLower c) ".mp4" = true ∨ containsTok (asciiLower c) ".webm" = true) →
      classify c d = StreamType.native) ∧
    (containsTok (asciiLower c) ".mpd" = false → containsTok (asciiLower c) "/dash/" = false →
      d.isSome = false → containsTok (asciiLower c) ".m3u8" = false →
      containsTok (asciiLower c) "/hls/" = false → containsTok (asciiLower c) ".mp4" = false →
      containsTok (asciiLower c) ".webm" = false →
      classify c d = StreamType.hls) := by
  refine ⟨?_, ?_, ?_, ?_⟩
  · intro h
    rcases h with h | h | h <;> simp [classify, h]
  · intro h1 h2 h3 h4
    rcases h4 with h | h <;> simp [classify, h1, h2, h3, h]
  · intro h1 h2 h3 h4 h5 h6
    rcases h6 with h | h <;> simp [classify, h1, h2, h3, h4, h5, h]
  · intro h1 h2 h3 h4 h5 h6 h7
    simp [classify, h1, h2, h3, h4, h5, h6, h7]

/-- C1 counterexample: the URL
`https://x/video|drmScheme=widevine&drmLicense=lic` carries a parsed DRM
block whose scheme is not `clearkey`, so the spec's resolved drm is absent
and C1 predicts `hls` (default), but the code classifies on the unvalidated
parsed block and yields `dash`. -/
theorem C1_counterexample :
    (resolve "https://x/video|drmScheme=widevine&drmLicense=lic").kind = StreamType.dash ∧
    specKindC1 "https://x/video|drmScheme=widevine&drmLicense=lic" = StreamType.hls ∧
    (resolve "https://x/video|drmScheme=widevine&drmLicense=lic").kind ≠
      specKindC1 "https://x/video|drmScheme=widevine&drmLicense=lic" := by
  decide

/-- C1 (amended): stream-kind resolution follows first-match classification
on the delimiter-stripped URL (lower-cased for sniffing only), where the
dash trigger is the PARSED DRM parameter block (both `drmScheme` and
`drmLicense` present and non-empty, regardless of scheme or license
validity), not the ClearKey-validated drm: `.mpd` or `/dash/` or a parsed
DRM block resolves to dash; otherwise `.m3u8` or `/hls/` to hls; otherwise
`.mp4`/`.webm` to native; any other URL to hls, and the empty string yields
hls with no drm. -/
theorem C1_classification (url : String) :
    ((containsTok (asciiLower (detectStreamType url).cleanUrl) ".mpd" = true ∨
      containsTok (asciiLower (detectStreamType url).cleanUrl) "/dash/" = true ∨
      (detectStreamType url).drmInfo.isSome = true) →
      (detectStreamType url).type = StreamType.dash) ∧
    (containsTok (asciiLower (detectStreamType url).cleanUrl) ".mpd" = false →
      containsTok (asciiLower (detectStreamType url).cleanUrl) "/dash/" = false →
      (detectStreamType url).drmInfo.isSome = false →
      (containsTok (asciiLower (detectStreamType url).cleanUrl) ".m3u8" = true ∨
       containsTok (asciiLower (detectStreamType url).cleanUrl) "/hls/" = true) →
      (detectStreamType url).type = StreamType.hls) ∧
    (containsTok (asciiLower (detectStreamType url).cleanUrl) ".mpd" = false →
      containsTok (asciiLower (detectStreamType url).cleanUrl) "/dash/" = false →
      (detectStreamType url).drmInfo.isSome = false →
      containsTok (asciiLower (detectStreamType url).cleanUrl) ".m3u8" = false →
      containsTok (asciiLower (detectStreamType url).cleanUrl) "/hls/" = false →
      (containsTok (asciiLower (detectStreamType url).cleanUrl) ".mp4" = true ∨
       containsTok (asciiLower (detectStreamType url).cleanUrl) ".webm" = true) →
      (detectStreamType url).type = StreamType.native) ∧
    (containsTok (asciiLower (detectStreamType url).cleanUrl) ".mpd" = false →
      containsTok (asciiLower (detectStreamType url).cleanUrl) "/dash/" = false →
      (detectStreamType url).drmInfo.isSome = false →
      containsTok (asciiLower (detectStreamType url).cleanUrl) ".m3u8" = false →
      containsTok (asciiLower (detectStreamType url).cleanUrl) "/hls/" = false →
      containsTok (asciiLower (detectStreamType url).cleanUrl) ".mp4" = false →
      containsTok (asciiLower (detectStreamType url).cleanUrl) ".webm" = false →
      (detectStreamType url).type = StreamType.hls) ∧
    resolve "" = ⟨"", StreamType.hls, none⟩ :=
  ⟨(classify_cases (detectStreamType url).cleanUrl (detectStreamType url).drmInfo).1,
   (classify_cases (detectStreamType url).cleanUrl (detectStreamType url).drmInfo).2.1,
   (classify_cases (detectStreamType url).cleanUrl (detectStreamType url).drmInfo).2.2.1,
   (classify_cases (detectStreamType url).cleanUrl (detectStreamType url).drmInfo).2.2.2,
   by decide⟩

/-- C1 witness: the amended classification evaluated at concrete URLs. -/
theorem C1_classification_witness :
    (detectStreamType "https://x/a.mpd").type = StreamType.dash ∧
    (detectStreamType "https://x/plain").type = StreamType.hls :=
  ⟨(C1_classification "https://x/a.mpd").1 (Or.inl (by decide)),
   (C1_classification "https://x/plain").2.2.2.1 (by decide) (by decide) (by decide)
     (by decide) (by decide) (by decide) (by decide)⟩

/-- C2 counterexample: with license `aa:bb:cc` (two `:`), the claim says the
resolved drm is absent, but the code only requires `includes(':')` and
configures the first two fields. -/
theorem C2_counterexample :
    (resolve "https://x/a.mpd?|drmScheme=clearkey&drmLicense=aa:bb:cc").drm = some ("aa", "bb") ∧
    ¬ ((resolve "https://x/a.mpd?|drmScheme=clearkey&drmLicense=aa:bb:cc").drm.isSome = true →
       ((detectStreamType "https://x/a.mpd?|drmScheme=clearkey&drmLicense=aa:bb:cc").drmInfo.any
         specValidDrmC2) = true) := by
  decide

/-- C2 (amended): the resolved drm is present exactly when the parsed block
has scheme `clearkey` and a license containing at least one `:`; the
configured pair is the first two `:`-separated fields (which may be empty);
a block with the wrong scheme or a colon-free license is silently treated as
absent, e.g. `.../a.mpd?|drmScheme=clearkey&drmLicense=malformed` yields
drm absent and kind dash. -/
theorem C2_resolved_drm (url : String) :
    ((resolve url).drm.isSome = true ↔
      ∃ i, (detectStreamType url).drmInfo = some i ∧ i.scheme = "clearkey" ∧
        containsTok i.license ":" = true) ∧
    resolve "https://x/a.mpd?|drmScheme=clearkey&drmLicense=malformed" =
      ⟨"https://x/a.mpd", StreamType.dash, none⟩ ∧
    resolve "https://x/a.mpd?|drmScheme=clearkey&drmLicense=aa:bb:cc" =
      ⟨"https://x/a.mpd", StreamType.dash, some ("aa", "bb")⟩ := by
  refine ⟨?_, by decide, by decide⟩
  show (resolvedClearKey (detectStreamType url).drmInfo).isSome = true ↔ _
  cases hd : (detectStreamType url).drmInfo with
  | none => simp [resolvedClearKey]
  | some i =>
    constructor
    · intro h
      rw [resolvedClearKey] at h
      by_cases hc : i.scheme = "clearkey" ∧ i.license ≠ "" ∧ containsTok i.license ":" = true
      · exact ⟨i, rfl, hc.1, hc.2.2⟩
      · rw [if_neg hc] at h
        simp at h
    · rintro ⟨j, hj, hs, hct⟩
      obtain rfl : i = j := by injection hj
      have hne : i.license ≠ "" := containsTok_empty_false _ _ hct
      rw [resolvedClearKey, if_pos ⟨hs, hne, hct⟩]
      rw [containsTok] at hct
      obtain ⟨⟨pre, post⟩, hfs⟩ := Option.isSome_iff_exists.mp hct
      rw [splitFirstTwo, hfs]
      rfl

/-- C2 witness: the characterization applied to a concrete well-formed URL. -/
theorem C2_resolved_drm_witness :
    (resolve "https://x/a.mpd?|drmScheme=clearkey&drmLicense=aa11:bb22").drm.isSome = true :=
  (C2_resolved_drm "https://x/a.mpd?|drmScheme=clearkey&drmLicense=aa11:bb22").1.mpr
    ⟨⟨"clearkey", "aa11:bb22"⟩, by decide, rfl, by decide⟩

/-- C3 counterexample: in `a|b?|c` the bare `|` occurs before the `?|`
delimiter, and the stripped clean URL `a|b` still contains a `|`. -/
theorem C3_counterexample :
    ¬ (containsTok (resolve "a|b?|c").cleanUrl "?|" = false ∧
       containsTok (resolve "a|b?|c").cleanUrl "|" = false) := by
  decide

/-- C3 (amended): the clean URL never contains the `?|` delimiter sequence,
and when the raw URL contains no `?|` the clean URL contains no bare `|`
either; only a `|` occurring before a later `?|` survives the stripping. -/
theorem C3_cleanUrl_delimiters (url : String) :
    containsTok (resolve url).cleanUrl "?|" = false ∧
    (containsTok url "?|" = false → containsTok (resolve url).cleanUrl "|" = false) := by
  have hclean : (resolve url).cleanUrl = (stripDrm url).1 := rfl
  rw [hclean]
  constructor
  · by_cases h1 : containsTok url "?|" = true
    · have hs : (stripDrm url).1 = (splitFirstTwo "?|" url).1 := by
        simp [stripDrm, h1]
      rw [hs]
      exact splitFirstTwo_fst_not_contains _ _ h1
    · have h1f : containsTok url "?|" = false := by
        cases hb : containsTok url "?|" with
        | false => rfl
        | true => exact absurd hb h1
      by_cases h2 : containsTok url "|" = true
      · have hs : (stripDrm url).1 = (splitFirstTwo "|" url).1 := by
          simp [stripDrm, h1f, h2]
        rw [hs]
        have hno := splitFirstTwo_fst_not_contains "|" url h2
        cases hq : containsTok (splitFirstTwo "|" url).1 "?|" with
        | false => rfl
        | true =>
          exact absurd (contains_pipe_of_contains_qpipe _ hq) (by rw [hno]; simp)
      · have h2f : containsTok url "|" = false := by
          cases hb : containsTok url "|" with
          | false => rfl
          | true => exact absurd hb h2
        have hs : (stripDrm url).1 = url := by
          simp [stripDrm, h1f, h2f]
        rw [hs]
        exact h1f
  · intro h1f
    by_cases h2 : containsTok url "|" = true
    · have hs : (stripDrm url).1 = (splitFirstTwo "|" url).1 := by
        simp [stripDrm, h1f, h2]
      rw [hs]
      exact splitFirstTwo_fst_not_contains "|" url h2
    · have h2f : containsTok url "|" = false := by
        cases hb : containsTok url "|" with
        | false => rfl
        | true => exact absurd hb h2
      have hs : (stripDrm url).1 = url := by
        simp [stripDrm, h1f, h2f]
      rw [hs]
      exact h2f

/-- C3 witness: the amended invariant at a concrete URL with a bare `|`. -/
theorem C3_cleanUrl_delimiters_witness :
    containsTok (resolve "x|y").cleanUrl "?|" = false ∧
    containsTok (resolve "x|y").cleanUrl "|" = false :=
  ⟨(C3_cleanUrl_delimiters "x|y").1, (C3_cleanUrl_delimiters "x|y").2 (by decide)⟩

/-- C7 counterexample: a NON-fatal network error produces no action at all
(the handler only acts on `data.fatal`), so no reload retry is issued,
contradicting the claimed non-fatal recovery policy. -/
theorem C7_counterexample :
    (step ⟨true, true, true⟩ { initState with hlsRef := some 0, loadingTimeout := some 1 }
      (Ev.hlsError false HlsErrKind.networkError "boom")).2 = [] ∧
    Act.startLoad ∉
      (step ⟨true, true, true⟩ { initState with hlsRef := some 0, loadingTimeout := some 1 }
        (Ev.hlsError false HlsErrKind.networkError "boom")).2 := by
  decide

/-- C7 (amended): the `hls.js` error handler acts only on FATAL errors: a
fatal network error triggers a reload retry (`startLoad`) without teardown, a
fatal media error triggers in-place recovery (`recoverMediaError`) without
teardown, any other fatal error sets the terminal `HLS Error: <details>`
message and performs full engine teardown, and every non-fatal error is
ignored (logged only). -/
theorem C7_hls_error_policy (env : Env) (s : MState) (d : String) :
    (Act.startLoad ∈
        (step env { s with mounted := true } (Ev.hlsError true HlsErrKind.networkError d)).2 ∧
      (step env { s with mounted := true } (Ev.hlsError true HlsErrKind.networkError d)).1.hlsRef
        = s.hlsRef ∧
      (step env { s with mounted := true } (Ev.hlsError true HlsErrKind.networkError d)).1.error
        = s.error ∧
      ∀ i, Act.destroyHls i ∉
        (step env { s with mounted := true } (Ev.hlsError true HlsErrKind.networkError d)).2) ∧
    (Act.recoverMediaError ∈
        (step env { s with mounted := true } (Ev.hlsError true HlsErrKind.mediaError d)).2 ∧
      (step env { s with mounted := true } (Ev.hlsError true HlsErrKind.mediaError d)).1.hlsRef
        = s.hlsRef ∧
      (step env { s with mounted := true } (Ev.hlsError true HlsErrKind.mediaError d)).1.error
        = s.error ∧
      ∀ i, Act.destroyHls i ∉
        (step env { s with mounted := true } (Ev.hlsError true HlsErrKind.mediaError d)).2) ∧
    ((step env { s with mounted := true } (Ev.hlsError true HlsErrKind.otherError d)).1.error
        = some ("HLS Error: " ++ d) ∧
      (step env { s with mounted := true } (Ev.hlsError true HlsErrKind.otherError d)).1.hlsRef
        = none ∧
      (step env { s with mounted := true } (Ev.hlsError true HlsErrKind.otherError d)).1.shakaRef
        = none ∧
      (step env { s with mounted := true } (Ev.hlsError true HlsErrKind.otherError d)).1.isLoading
        = false) ∧
    (∀ k, step env { s with mounted := true } (Ev.hlsError false k d)
        = ({ s with mounted := true }, [])) := by
  refine ⟨⟨?_, ?_, ?_, ?_⟩, ⟨?_, ?_, ?_, ?_⟩, ⟨?_, ?_, ?_, ?_⟩, ?_⟩ <;>
    cases hlt : s.loadingTimeout <;> cases hh : s.hlsRef <;> cases hsk : s.shakaRef <;>
    simp [step, clearLoadingTimeout, destroyPlayer, hlt, hh, hsk]

/-- C8: the Shaka error handler buckets numeric error codes into four
pairwise-distinct user-facing message classes: `[6000, 7000)` is a network
error, `[4000, 5000)` a media-format error, `[1000, 2000)` a DRM error, and
everything else a generic message carrying the code. -/
theorem C8_error_buckets (c1 c2 c3 c4 : Nat)
    (h1a : 6000 ≤ c1) (h1b : c1 < 7000)
    (h2a : 4000 ≤ c2) (h2b : c2 < 5000)
    (h3a : 1000 ≤ c3) (h3b : c3 < 2000)
    (h4a : ¬ (6000 ≤ c4 ∧ c4 < 7000)) (h4b : ¬ (4000 ≤ c4 ∧ c4 < 5000))
    (h4c : ¬ (1000 ≤ c4 ∧ c4 < 2000)) :
    shakaErrorMessage c1 = "Network error - please check your connection" ∧
    shakaErrorMessage c2 = "Media format not supported" ∧
    shakaErrorMessage c3 = "DRM error - content may be protected" ∧
    shakaErrorMessage c4 = "Stream error (" ++ toString c4 ++ ")" ∧
    shakaErrorMessage c1 ≠ shakaErrorMessage c2 ∧
    shakaErrorMessage c1 ≠ shakaErrorMessage c3 ∧
    shakaErrorMessage c2 ≠ shakaErrorMessage c3 ∧
    shakaErrorMessage c4 ≠ shakaErrorMessage c1 ∧
    shakaErrorMessage c4 ≠ shakaErrorMessage c2 ∧
    shakaErrorMessage c4 ≠ shakaErrorMessage c3 := by
  have e1 : shakaErrorMessage c1 = "Network error - please check your connection" := by
    simp [shakaErrorMessage, h1a, h1b]
  have e2 : shakaErrorMessage c2 = "Media format not supported" := by
    have : ¬ (6000 ≤ c2 ∧ c2 < 7000) := by omega
    simp [shakaErrorMessage, this, h2a, h2b]
  have e3 : shakaErrorMessage c3 = "DRM error - content may be protected" := by
    have hn1 : ¬ (6000 ≤ c3 ∧ c3 < 7000) := by omega
    have hn2 : ¬ (4000 ≤ c3 ∧ c3 < 5000) := by omega
    simp [shakaErrorMessage, hn1, hn2, h3a, h3b]
  have e4 : shakaErrorMessage c4 = "Stream error (" ++ toString c4 ++ ")" := by
    simp [shakaErrorMessage, h4a, h4b, h4c]
  have hgen : ∀ fx : String, fx.data.head? ≠ some 'S' →
      ("Stream error (" ++ toString c4 ++ ")") ≠ fx := by
    intro fx hfx h
    apply hfx
    rw [← congrArg (fun s : String => s.data.head?) h]
    rfl
  refine ⟨e1, e2, e3, e4, ?_, ?_, ?_, ?_, ?_, ?_⟩
  · rw [e1, e2]; decide
  · rw [e1, e3]; decide
  · rw [e2, e3]; decide
  · rw [e4, e1]; exact hgen _ (by decide)
  · rw [e4, e2]; exact hgen _ (by decide)
  · rw [e4, e3]; exact hgen _ (by decide)

/-- C8 witness: the buckets evaluated at 6500, 4500, 1500 and 3000. -/
theorem C8_error_buckets_witness :
    shakaErrorMessage 6500 = "Network error - please check your connection" ∧
    shakaErrorMessage 4500 = "Media format not supported" ∧
    shakaErrorMessage 1500 = "DRM error - content may be protected" ∧
    shakaErrorMessage 3000 = "Stream error (" ++ toString 3000 ++ ")" ∧
    shakaErrorMessage 3000 ≠ shakaErrorMessage 6500 :=
  have h := C8_error_buckets 6500 4500 1500 3000 (by decide) (by decide) (by decide)
    (by decide) (by decide) (by decide) (by decide) (by decide) (by decide)
  ⟨h.1, h.2.1, h.2.2.1, h.2.2.2.1, h.2.2.2.2.2.2.2.1⟩

/-- C10: `handleVolumeChange` with a surface attached sets the surface
volume to `v / 100`, stores the slider value, forces `isMuted := true` when
`v = 0`, forces `isMuted := false` when `v > 0` while muted, leaves it
`false` when `v > 0` while unmuted, and never touches the surface's own
`muted` flag; with no surface attached the intent is a no-op. -/
theorem C10_volume_change (s : VolState) (el : VideoEl) (v : Nat)
    (_hv : v ≤ 100) (hel : s.video = some el) :
    (handleVolumeChange s v).video = some { el with volume := (v : ℚ) / 100 } ∧
    (handleVolumeChange s v).volume = v ∧
    (v = 0 → (handleVolumeChange s v).isMuted = true) ∧
    (v ≠ 0 → s.isMuted = true → (handleVolumeChange s v).isMuted = false) ∧
    (v ≠ 0 → s.isMuted = false → (handleVolumeChange s v).isMuted = false) ∧
    (∀ t : VolState, t.video = none → handleVolumeChange t v = t) := by
  refine ⟨?_, ?_, ?_, ?_, ?_, ?_⟩
  · by_cases h0 : v = 0 <;>
      cases hm : s.isMuted <;> simp [handleVolumeChange, hel, h0, hm]
  · by_cases h0 : v = 0 <;>
      cases hm : s.isMuted <;> simp [handleVolumeChange, hel, h0, hm]
  · intro h0; simp [handleVolumeChange, hel, h0]
  · intro h0 hm; simp [handleVolumeChange, hel, h0, hm]
  · intro h0 hm; simp [handleVolumeChange, hel, h0, hm]
  · intro t ht; simp [handleVolumeChange, ht]

/-- C10 witness: the handler evaluated on a concrete attached surface. -/
theorem C10_volume_change_witness :
    (handleVolumeChange ⟨some ⟨3 / 4, false⟩, 75, true⟩ 50).video
        = some ⟨(50 : ℚ) / 100, false⟩ ∧
    (handleVolumeChange ⟨some ⟨3 / 4, false⟩, 75, true⟩ 50).volume = 50 ∧
    (handleVolumeChange ⟨some ⟨3 / 4, false⟩, 75, true⟩ 50).isMuted = false :=
  have h := C10_volume_change ⟨some ⟨3 / 4, false⟩, 75, true⟩ ⟨3 / 4, false⟩ 50
    (by decide) rfl
  ⟨h.1, h.2.1, h.2.2.2.1 (by decide) rfl⟩

theorem reach_of_traceOk (env : Env) :
    ∀ (evs : List Ev) (s : MState), Reach env s → traceOkFrom env s evs = true →
      Reach env (runTraceFrom env s evs) := by
  intro evs
  induction evs with
  | nil => intro s hr _; exact hr
  | cons e rest ih =>
    intro s hr hok
    rw [traceOkFrom, Bool.and_eq_true] at hok
    exact ih _ (Reach.next s e hr hok.1) hok.2

/-- C9 counterexample: in the `StreamPlayer.tsx` variant, two sources with
the same URL (no `.m3u8`/`.mpd` pattern) but hints `hls` vs `mp4` select
different engines — the hint is not advisory there. -/
theorem C9_counterexample :
    loadStreamSelect false ⟨"https://example.com/stream", some HintT.hls⟩
      = some EngineV2.shakaV2 ∧
    loadStreamSelect false ⟨"https://example.com/stream", some HintT.mp4⟩
      = some EngineV2.direct ∧
    loadStreamSelect false ⟨"https://example.com/stream", some HintT.hls⟩
      ≠ loadStreamSelect false ⟨"https://example.com/stream", some HintT.mp4⟩ := by
  decide

/-- C9 (amended): in the canonical variant the hint has no effect — stream
detection and engine selection are functions of the URL alone — but in the
`StreamPlayer.tsx` variant the hint participates in engine selection: an
`hls` or `dash` hint forces the Shaka path regardless of the URL shape. -/
theorem C9_hint_effect (s1 s2 : StreamSource) (h : s1.src = s2.src) :
    (detectStreamType s1.src = detectStreamType s2.src) ∧
    (canonicalSelect s1 = canonicalSelect s2) ∧
    (∀ u : String, loadStreamSelect false ⟨u, some HintT.hls⟩ = some EngineV2.shakaV2) ∧
    (∀ u : String, loadStreamSelect false ⟨u, some HintT.dash⟩ = some EngineV2.shakaV2) := by
  refine ⟨by rw [h], by simp [canonicalSelect, h], ?_, ?_⟩ <;>
    intro u <;> simp [loadStreamSelect]

/-- C9 witness: hint invariance of the canonical selection at a concrete
URL, and the hint-sensitivity of the second variant. -/
theorem C9_hint_effect_witness :
    canonicalSelect ⟨"https://e/x.m3u8", some HintT.hls⟩
      = canonicalSelect ⟨"https://e/x.m3u8", some HintT.mp4⟩ ∧
    loadStreamSelect false ⟨"https://e/x", some HintT.dash⟩ = some EngineV2.shakaV2 :=
  have h := C9_hint_effect ⟨"https://e/x.m3u8", some HintT.hls⟩
    ⟨"https://e/x.m3u8", some HintT.mp4⟩ rfl
  ⟨h.2.1, h.2.2.2 "https://e/x"⟩

/-- C5 (code bug): for a native-kind source, after the load deadline fires
(Error state entered, teardown done) a late `loadedmetadata` success event
still transitions the session to playing and clears the error, because the
`{ once: true }` listener on the video element survives `destroyPlayer` and
the handler only checks `isMountedRef`, not whether the deadline already
fired. -/
theorem C5_bug :
    traceOk ⟨true, true, true⟩ [Ev.initStart "https://x/v.mp4", Ev.timeoutFire 0] = true ∧
    (runTrace ⟨true, true, true⟩ [Ev.initStart "https://x/v.mp4", Ev.timeoutFire 0]).error
      = some loadTimeoutMsg ∧
    (runTrace ⟨true, true, true⟩ [Ev.initStart "https://x/v.mp4", Ev.timeoutFire 0]).isPlaying
      = false ∧
    (runTrace ⟨true, true, true⟩ [Ev.initStart "https://x/v.mp4", Ev.timeoutFire 0]).isLoading
      = false ∧
    traceOk ⟨true, true, true⟩
      [Ev.initStart "https://x/v.mp4", Ev.timeoutFire 0, Ev.nativeLoadedMetadata] = true ∧
    (runTrace ⟨true, true, true⟩
      [Ev.initStart "https://x/v.mp4", Ev.timeoutFire 0, Ev.nativeLoadedMetadata]).isPlaying
      = true ∧
    (runTrace ⟨true, true, true⟩
      [Ev.initStart "https://x/v.mp4", Ev.timeoutFire 0, Ev.nativeLoadedMetadata]).error
      = none := by
  decide

/-- C6 (code bug): unmounting while a Shaka load is in flight destroys the
player, which rejects the pending `load`; the rejection handler
(`initializePlayer`'s catch) has no `isMountedRef` check and still calls the
`PlaybackState` setters after unmount. -/
theorem C6_bug :
    traceOk ⟨true, true, true⟩
      [Ev.initStart "https://x/a.mpd", Ev.importDone 1, Ev.unmount] = true ∧
    (runTrace ⟨true, true, true⟩
      [Ev.initStart "https://x/a.mpd", Ev.importDone 1, Ev.unmount]).mounted = false ∧
    (runTrace ⟨true, true, true⟩
      [Ev.initStart "https://x/a.mpd", Ev.importDone 1, Ev.unmount]).shakaRef = none ∧
    (runTrace ⟨true, true, true⟩
      [Ev.initStart "https://x/a.mpd", Ev.importDone 1, Ev.unmount]).isLoading = true ∧
    evOk (runTrace ⟨true, true, true⟩
        [Ev.initStart "https://x/a.mpd", Ev.importDone 1, Ev.unmount])
      (Ev.shakaLoadRejected 2 "Load interrupted") = true ∧
    ((step ⟨true, true, true⟩
        (runTrace ⟨true, true, true⟩
          [Ev.initStart "https://x/a.mpd", Ev.importDone 1, Ev.unmount])
        (Ev.shakaLoadRejected 2 "Load interrupted")).2.filter isStateMutation
      = [Act.setIsLoading false, Act.setError (some "Load interrupted")]) ∧
    (step ⟨true, true, true⟩
        (runTrace ⟨true, true, true⟩
          [Ev.initStart "https://x/a.mpd", Ev.importDone 1, Ev.unmount])
        (Ev.shakaLoadRejected 2 "Load interrupted")).1.error
      = some "Load interrupted" := by
  decide

theorem destroyPlayer_fst (s : MState) :
    (destroyPlayer s).1 =
      { s with hlsRef := none, shakaRef := none, loadingTimeout := none,
               playerType := none } := by
  cases h1 : s.hlsRef <;> cases h2 : s.shakaRef <;> cases h3 : s.loadingTimeout <;>
    simp [destroyPlayer, h1, h2, h3]

theorem clearLoadingTimeout_fst (s : MState) :
    (clearLoadingTimeout s).1 = { s with loadingTimeout := none } := by
  cases h : s.loadingTimeout with
  | none =>
    show (match s.loadingTimeout with
          | some i => ({ s with loadingTimeout := none }, [Act.clearTimeout i])
          | none => (s, [])).1 = _
    rw [h]
    show s = { s with loadingTimeout := none }
    rw [← h]
  | some i =>
    show (match s.loadingTimeout with
          | some i => ({ s with loadingTimeout := none }, [Act.clearTimeout i])
          | none => (s, [])).1 = _
    rw [h]

/-- States agreeing on the fields `InvC4` reads satisfy it together. -/
theorem invC4_congr (s t : MState) (h1 : t.hlsRef = s.hlsRef) (h2 : t.shakaRef = s.shakaRef)
    (h3 : t.pendingImports = s.pendingImports) (h : InvC4 s) : InvC4 t := by
  unfold InvC4 aliveEngines at h ⊢
  rw [h1, h2, h3]
  exact h

/-- A state with no live engine satisfies `InvC4` whenever its pending-import
list is short enough. -/
theorem invC4_of_none (t : MState) (h1 : t.hlsRef = none) (h2 : t.shakaRef = none)
    (hlen : t.pendingImports.length ≤ 1) : InvC4 t := by
  unfold InvC4 aliveEngines
  rw [h1, h2]
  exact ⟨by simp, fun _ => by simp, hlen⟩

/-- A state with at most one live engine and no pending import satisfies
`InvC4`. -/
theorem invC4_of_single (t : MState) (h1 : t.hlsRef = none ∨ t.shakaRef = none)
    (hp : t.pendingImports = []) : InvC4 t := by
  unfold InvC4 aliveEngines
  refine ⟨?_, fun hne => absurd hp hne, by simp [hp]⟩
  rcases h1 with h | h <;> simp [h] <;> split <;> simp

/-- The strong invariant `InvC4` is preserved along sequentialized traces. -/
theorem reachSeq_inv (env : Env) : ∀ s, ReachSeq env s → InvC4 s := by
  intro s h
  induction h with
  | base => exact ⟨by decide, by decide, by decide⟩
  | next s e hs hok hseq ih =>
    cases e with
    | initStart src =>
      have hpe : s.pendingImports = [] := hseq src rfl
      refine invC4_of_none _ ?_ ?_ ?_ <;>
        · simp only [step, stepInitStart, destroyPlayer_fst]
          split <;> simp [hpe]
    | importDone tok =>
      simp only [step]
      cases hf : s.pendingImports.find? (fun p => p.tok == tok) with
      | none => exact ih
      | some p =>
        have hne : s.pendingImports ≠ [] := by
          intro hz
          rw [hz] at hf
          simp [List.find?] at hf
        have hzero := ih.2.1 hne
        have hrefs : s.hlsRef = none ∧ s.shakaRef = none := by
          unfold aliveEngines at hzero
          constructor
          · cases hx : s.hlsRef <;> simp [hx] at hzero ⊢
          · cases hx : s.shakaRef <;> simp [hx] at hzero ⊢
        have hsingle : s.pendingImports = [p] := by
          cases hl : s.pendingImports with
          | nil => exact absurd hl hne
          | cons q rest =>
            cases rest with
            | nil =>
              rw [hl] at hf
              by_cases hq : (q.tok == tok) = true
              · simp only [List.find?, hq, Option.some.injEq] at hf
                rw [hf]
              · simp only [List.find?, hq, Bool.false_eq_true] at hf
                simp [List.find?] at hf
            | cons q2 rest2 =>
              have := ih.2.2
              rw [hl] at this
              simp at this
        have hptok : (p.tok == tok) = true := by
          rw [hsingle] at hf
          by_cases hq : (p.tok == tok) = true
          · exact hq
          · simp only [List.find?, hq, Bool.false_eq_true] at hf
            simp [List.find?] at hf
        have hbne : (p.tok != tok) = false := by
          simp [bne, hptok]
        have hfilter : s.pendingImports.filter (fun q => q.tok != tok) = [] := by
          rw [hsingle]
          simp [List.filter, hbne]
        rw [hfilter]
        cases hk : p.kind with
        | shaka =>
          cases hsup : env.shakaSupported with
          | true =>
            refine invC4_of_single _ (Or.inl ?_) ?_ <;>
              simp [runImport, hk, hsup, hrefs.1, hrefs.2]
          | false =>
            refine invC4_of_none _ ?_ ?_ ?_ <;>
              simp [runImport, hk, hsup, clearLoadingTimeout_fst, hrefs.1, hrefs.2]
        | hls =>
          cases hsup : env.hlsSupported with
          | true =>
            refine invC4_of_single _ (Or.inr ?_) ?_ <;>
              simp [runImport, hk, hsup, hrefs.2]
          | false =>
            cases hnat : env.nativeHlsSupported with
            | true =>
              refine invC4_of_none _ ?_ ?_ ?_ <;>
                simp [runImport, hk, hsup, hnat, hrefs.1, hrefs.2]
            | false =>
              refine invC4_of_none _ ?_ ?_ ?_ <;>
                simp [runImport, hk, hsup, hnat, clearLoadingTimeout_fst, hrefs.1, hrefs.2]
        | native =>
          refine invC4_of_none _ ?_ ?_ ?_ <;>
            simp [runImport, hk, hrefs.1, hrefs.2]
    | unmount =>
      refine invC4_of_none _ ?_ ?_ ?_
      · simp [step, destroyPlayer_fst]
      · simp [step, destroyPlayer_fst]
      · simp only [step, destroyPlayer_fst]
        exact ih.2.2
    | remount =>
      exact invC4_congr s _ rfl rfl rfl ih
    | timeoutFire tid =>
      cases hm : s.mounted with
      | true =>
        refine invC4_of_none _ ?_ ?_ ?_
        · simp [step, hm, destroyPlayer_fst]
        · simp [step, hm, destroyPlayer_fst]
        · simp only [step, hm, if_true, destroyPlayer_fst]
          exact ih.2.2
      | false =>
        simp only [step, hm, Bool.false_eq_true, if_false]
        exact ih
    | hlsManifestParsed =>
      cases hm : s.mounted with
      | true =>
        refine invC4_congr s _ ?_ ?_ ?_ ih <;>
          simp [step, hm, clearLoadingTimeout_fst]
      | false =>
        simp only [step, hm, Bool.false_eq_true, if_false]
        exact ih
    | hlsError fatal kind details =>
      cases hm : s.mounted with
      | false =>
        simp only [step, hm, Bool.false_eq_true, if_false]
        exact ih
      | true =>
        cases fatal with
        | false =>
          simp only [step, hm, if_true, Bool.false_eq_true, if_false]
          exact ih
        | true =>
          cases kind with
          | networkError =>
            refine invC4_congr s _ ?_ ?_ ?_ ih <;>
              simp [step, hm, clearLoadingTimeout_fst]
          | mediaError =>
            refine invC4_congr s _ ?_ ?_ ?_ ih <;>
              simp [step, hm, clearLoadingTimeout_fst]
          | otherError =>
            refine invC4_of_none _ ?_ ?_ ?_
            · simp [step, hm, clearLoadingTimeout_fst, destroyPlayer_fst]
            · simp [step, hm, clearLoadingTimeout_fst, destroyPlayer_fst]
            · simp only [step, hm, if_true, clearLoadingTimeout_fst, destroyPlayer_fst]
              exact ih.2.2
    | shakaError code =>
      refine invC4_of_none _ ?_ ?_ ?_
      · simp [step, clearLoadingTimeout_fst, destroyPlayer_fst]
      · simp [step, clearLoadingTimeout_fst, destroyPlayer_fst]
      · simp only [step, clearLoadingTimeout_fst, destroyPlayer_fst]
        exact ih.2.2
    | shakaLoadResolved pid =>
      refine invC4_congr s _ ?_ ?_ ?_ ih <;>
        simp [step, clearLoadingTimeout_fst]
    | shakaLoadRejected pid msg =>
      refine invC4_congr s _ ?_ ?_ ?_ ih <;>
        simp [step, clearLoadingTimeout_fst]
    | nativeLoadedMetadata =>
      cases hm : s.mounted with
      | true =>
        refine invC4_congr s _ ?_ ?_ ?_ ih <;>
          simp [step, hm, clearLoadingTimeout_fst]
      | false =>
        refine invC4_congr s _ ?_ ?_ ?_ ih <;>
          simp [step, hm]

/-- C4 counterexample: interleaving a source change with a pending dynamic
module load violates at-most-one-engine.  A dash source suspends at the
shaka module load; the source changes to an hls one (cleanup + re-run,
which also suspends); the stale shaka continuation then resumes
and creates its player (nothing re-checks that it was superseded), and the
hls continuation creates a second engine: two live engines at once. -/
theorem C4_counterexample :
    traceOk ⟨true, true, true⟩
      [Ev.initStart "https://a/x.mpd", Ev.unmount, Ev.remount,
       Ev.initStart "https://b/y.m3u8", Ev.importDone 1, Ev.importDone 3] = true ∧
    Reach ⟨true, true, true⟩
      (runTrace ⟨true, true, true⟩
        [Ev.initStart "https://a/x.mpd", Ev.unmount, Ev.remount,
         Ev.initStart "https://b/y.m3u8", Ev.importDone 1, Ev.importDone 3]) ∧
    aliveEngines
      (runTrace ⟨true, true, true⟩
        [Ev.initStart "https://a/x.mpd", Ev.unmount, Ev.remount,
         Ev.initStart "https://b/y.m3u8", Ev.importDone 1, Ev.importDone 3]) = 2 :=
  ⟨by decide,
   reach_of_traceOk ⟨true, true, true⟩
     [Ev.initStart "https://a/x.mpd", Ev.unmount, Ev.remount,
      Ev.initStart "https://b/y.m3u8", Ev.importDone 1, Ev.importDone 3]
     initState Reach.base (by decide),
   by decide⟩

/-- C4 (amended): at most one engine instance is alive at any instant
provided each source change's engine construction completes before the next
one begins (sequentialized traces); every `initializePlayer` run begins with
the teardown's effects before any construction effect; and `destroyPlayer`
is idempotent — a second consecutive call changes nothing and emits no
teardown effect, since the handles and the pending timeout are nulled after
release. -/
theorem C4_engine_lifecycle :
    (∀ (env : Env) (s : MState), ReachSeq env s → aliveEngines s ≤ 1) ∧
    (∀ s : MState, destroyPlayer (destroyPlayer s).1 = ((destroyPlayer s).1, [])) ∧
    (∀ (s : MState) (src : String),
      ∃ rest, (stepInitStart s src).2 = (destroyPlayer s).2 ++ rest) := by
  refine ⟨fun env s h => (reachSeq_inv env s h).1, ?_, ?_⟩
  · intro s
    rw [destroyPlayer_fst]
    rfl
  · intro s src
    refine ⟨[Act.setIsLoading true, Act.setError none, Act.setIsPlaying false,
             Act.armTimeout (destroyPlayer s).1.nextId], ?_⟩
    simp only [stepInitStart]
    split <;> simp

/-- C4 witness: the invariant at the initial state and idempotent teardown
on a concrete state holding an engine and a timer. -/
theorem C4_engine_lifecycle_witness :
    aliveEngines initState ≤ 1 ∧
    destroyPlayer (destroyPlayer { initState with hlsRef := some 7, loadingTimeout := some 3 }).1
      = ((destroyPlayer { initState with hlsRef := some 7, loadingTimeout := some 3 }).1, []) :=
  ⟨C4_engine_lifecycle.1 ⟨true, true, true⟩ initState ReachSeq.base,
   C4_engine_lifecycle.2.1 { initState with hlsRef := some 7, loadingTimeout := some 3 }⟩

/-- Sanity check: the spec's worked resolution example (section 8) holds of
the embedded resolver. -/
theorem resolve_spec_example :
    resolve "https://x/a.mpd?|drmScheme=clearkey&drmLicense=aa11:bb22" =
      ⟨"https://x/a.mpd", .dash, some ("aa11", "bb22")⟩ ∧
    resolve "https://test-streams.mux.dev/x36xhzz/x36xhzz.m3u8" =
      ⟨"https://test-streams.mux.dev/x36xhzz/x36xhzz.m3u8", .hls, none⟩ := by
  decide

end StreamWeaver
